import Mathlib

/-!
Shallow embedding of the supervise-dev/bridge request handlers.

The repository exposes filesystem and process operations over a typed
request/response protocol (tRPC).  The handlers in `src/fs/index.ts` and the
process handler file delegate the actual I/O to external collaborators
(Node's `fs/promises`, Bun's `spawn` and `$` shell).  In this development
the handlers are translated line by line into pure Lean functions, and the
external collaborators appear as explicit oracle parameters (a file store,
an access oracle, a stat oracle, a shell-run oracle) whose behaviour is the
documented behaviour of those runtimes.
-/

namespace Bridge

/-! ## Base64 codec

Model of Node's `Buffer` base64 codec, used by `readFileQuery`
(`content.toString("base64")`) and `writeFileMutation`
(`Buffer.from(input.data.data, "base64")`).  Bytes are `Nat` values below
256.  `base64EncodeBytes` produces the canonical padded encoding that
`Buffer.prototype.toString("base64")` produces; `base64DecodeBytes` is the
inverse on well-formed base64 text, matching `Buffer.from(s, "base64")`
there. -/

/-- The standard base64 alphabet, as a list of characters. -/
def b64Alphabet : List Char :=
  "ABCDEFGHIJKLMNOPQRSTUVWXYZabcdefghijklmnopqrstuvwxyz0123456789+/".data

/-- Character for a sextet value (0..63). -/
def b64Char (n : Nat) : Char := b64Alphabet.getD n 'A'

/-- Sextet value of a base64 character. -/
def b64Index (c : Char) : Nat := b64Alphabet.indexOf c

/-- Canonical padded base64 encoding of a byte list, three bytes at a time,
exactly as `Buffer.prototype.toString("base64")` renders it. -/
def base64EncodeBytes : List Nat → List Char
  | [] => []
  | [a] => [b64Char (a / 4), b64Char (a % 4 * 16), '=', '=']
  | [a, b] => [b64Char (a / 4), b64Char (a % 4 * 16 + b / 16), b64Char (b % 16 * 4), '=']
  | a :: b :: c :: rest =>
      b64Char (a / 4) :: b64Char (a % 4 * 16 + b / 16) ::
        b64Char (b % 16 * 4 + c / 64) :: b64Char (c % 64) :: base64EncodeBytes rest

/-- Base64 decoding of well-formed base64 text, four characters at a time,
honouring `=` padding, as `Buffer.from(s, "base64")` decodes it. -/
def base64DecodeBytes : List Char → List Nat
  | c1 :: c2 :: c3 :: c4 :: rest =>
      let s1 := b64Index c1
      let s2 := b64Index c2
      if c3 = '=' then [s1 * 4 + s2 / 16]
      else
        let s3 := b64Index c3
        if c4 = '=' then [s1 * 4 + s2 / 16, s2 % 16 * 16 + s3 / 4]
        else
          (s1 * 4 + s2 / 16) :: (s2 % 16 * 16 + s3 / 4) ::
            (s3 % 4 * 64 + b64Index c4) :: base64DecodeBytes rest
  | _ => []

theorem b64Index_b64Char : ∀ n, n < 64 → b64Index (b64Char n) = n := by decide

theorem b64Char_ne_pad : ∀ n, n < 64 → b64Char n ≠ '=' := by decide

/-- Decoding inverts encoding on byte lists. -/
theorem base64_decode_encode : ∀ (B : List Nat), (∀ b ∈ B, b < 256) →
    base64DecodeBytes (base64EncodeBytes B) = B
  | [], _ => rfl
  | [a], h => by
      have ha : a < 256 := h a (by simp)
      simp only [base64EncodeBytes, base64DecodeBytes]
      rw [b64Index_b64Char _ (by omega), b64Index_b64Char _ (by omega)]
      simp
      all_goals omega
  | [a, b], h => by
      have ha : a < 256 := h a (by simp)
      have hb : b < 256 := h b (by simp)
      simp only [base64EncodeBytes, base64DecodeBytes]
      rw [if_neg (b64Char_ne_pad _ (by omega))]
      rw [b64Index_b64Char _ (by omega), b64Index_b64Char _ (by omega),
        b64Index_b64Char _ (by omega)]
      simp
      all_goals omega
  | a :: b :: c :: rest, h => by
      have ha : a < 256 := h a (by simp)
      have hb : b < 256 := h b (by simp)
      have hc : c < 256 := h c (by simp)
      have ih := base64_decode_encode rest (fun x hx => h x (by simp [hx]))
      simp only [base64EncodeBytes, base64DecodeBytes]
      rw [if_neg (b64Char_ne_pad _ (by omega)), if_neg (b64Char_ne_pad _ (by omega))]
      rw [b64Index_b64Char _ (by omega), b64Index_b64Char _ (by omega),
        b64Index_b64Char _ (by omega), b64Index_b64Char _ (by omega)]
      simp [ih]
      all_goals omega

/-! ## File store

Abstract state of the host filesystem as the handlers observe it: a finite
association of paths to regular-file byte contents.  A later binding for a
path shadows earlier ones, matching overwrite-on-write. -/

/-- Path-to-bytes association list standing for the regular files on disk. -/
def FileStore : Type := List (String × List Nat)

/-- Bytes currently stored at a path, if any. -/
def storeLookup : FileStore → String → Option (List Nat)
  | [], _ => none
  | (q, v) :: rest, p => if q = p then some v else storeLookup rest p

/-- Effect of a successful whole-file write at a path. -/
def storeInsert (store : FileStore) (p : String) (v : List Nat) : FileStore :=
  (p, v) :: store

/-- Effect of removing a path. -/
def storeErase (store : FileStore) (p : String) : FileStore :=
  store.filter (fun e => ! (e.fst = p : Bool))

/-! ## Filesystem operations (src/fs/index.ts, schemas in src/fs/index.types.ts) -/

/-- Input of fs.exists: a single path string. -/
structure ExistsInput where
  path : String

/-- existsQuery: awaits a node fs.access outcome (the oracle argument) inside
a try block and catches every error, returning false.  Translation of
lines 21-28 of src/fs/index.ts. -/
def existsQuery (access : String → Except String Unit) (input : ExistsInput) : Bool :=
  match access input.path with
  | .ok _ => true
  | .error _ => false

/-- Object form of the readFile options union. -/
structure ReadFileObjOptions where
  encoding : Option String := none
  flag : Option String := none

/-- readFile options: zod union of an options object and a bare encoding string. -/
inductive ReadFileOptions where
  | obj (o : ReadFileObjOptions)
  | enc (s : String)

/-- Input of fs.readFile. -/
structure ReadFileInput where
  path : String
  options : Option ReadFileOptions := none

/-- Wire shape of the readFile result: a tag ("Buffer" or "string") and the
payload string (base64 text for "Buffer"). -/
structure ReadFileOutput where
  type : String
  data : String
deriving DecidableEq

/-- Effective encoding requested by a readFile options value, following
node's handling of the string-or-object options argument. -/
def readFileRequestedEncoding : Option ReadFileOptions → Option String
  | none => none
  | some (.enc s) => some s
  | some (.obj o) => o.encoding

/-- readFileQuery: node fs.readFile yields a Buffer when no encoding is
requested and a decoded string otherwise; the handler base64-encodes the
Buffer case for transmission.  Translation of lines 47-54 of
src/fs/index.ts; `toText` stands for node's charset decoding of the stored
bytes at a requested encoding. -/
def readFileQuery (toText : List Nat → String → String) (store : FileStore)
    (input : ReadFileInput) : Except String ReadFileOutput :=
  match storeLookup store input.path with
  | none => .error "ENOENT"
  | some bytes =>
      match readFileRequestedEncoding input.options with
      | none => .ok { type := "Buffer", data := String.mk (base64EncodeBytes bytes) }
      | some e => .ok { type := "string", data := toText bytes e }

/-- Object form of the writeFile options union. -/
structure WriteFileObjOptions where
  encoding : Option String := none
  mode : Option Nat := none
  flag : Option String := none

/-- writeFile options: zod union of an options object and a bare encoding string. -/
inductive WriteFileOptions where
  | obj (o : WriteFileObjOptions)
  | enc (s : String)

/-- The data union of writeFile: a plain string, or the wire Buffer record
with a base64 payload (the type:"Buffer" tag is the `buffer` constructor). -/
inductive WriteData where
  | str (s : String)
  | buffer (dataB64 : String)

/-- Input of fs.writeFile. -/
structure WriteFileInput where
  path : String
  data : WriteData
  options : Option WriteFileOptions := none

/-- Wire shape of the writeFile result. -/
structure WriteFileOutput where
  success : Bool
deriving DecidableEq

/-- writeFileMutation: a tagged Buffer payload is base64-decoded before
writing; a plain string is written through node's text encoding (the
`encodeText` parameter, which receives the options).  Translation of lines
86-95 of src/fs/index.ts; the store insert is the effect of the awaited
fs.writeFile. -/
def writeFileMutation (encodeText : String → Option WriteFileOptions → List Nat)
    (store : FileStore) (input : WriteFileInput) : FileStore × WriteFileOutput :=
  let data : List Nat :=
    match input.data with
    | .buffer d => base64DecodeBytes d.data
    | .str s => encodeText s input.options
  (storeInsert store input.path data, { success := true })

/-- Options object of fs.stat (zod statInput). -/
structure StatOptions where
  bigint : Option Bool := none
  throwIfNoEntry : Option Bool := none

/-- Input of fs.stat. -/
structure StatInput where
  path : String
  options : Option StatOptions := none

/-- Metadata node's fs.stat reports for a present path: the numeric fields,
millisecond timestamps, the ISO rendering of each timestamp Date, and the
three type predicates. -/
structure NodeStats where
  dev : Int
  ino : Int
  mode : Int
  nlink : Int
  uid : Int
  gid : Int
  rdev : Int
  size : Int
  blksize : Int
  blocks : Int
  atimeMs : Int
  mtimeMs : Int
  ctimeMs : Int
  birthtimeMs : Int
  atimeIso : String
  mtimeIso : String
  ctimeIso : String
  birthtimeIso : String
  isFile : Bool
  isDirectory : Bool
  isSymbolicLink : Bool
deriving DecidableEq

/-- Wire shape of the stat result (zod statOutput). -/
structure StatOutput where
  dev : Int
  ino : Int
  mode : Int
  nlink : Int
  uid : Int
  gid : Int
  rdev : Int
  size : Int
  blksize : Int
  blocks : Int
  atimeMs : Int
  mtimeMs : Int
  ctimeMs : Int
  birthtimeMs : Int
  atime : String
  mtime : String
  ctime : String
  birthtime : String
  isFile : Bool
  isDirectory : Bool
  isSymbolicLink : Bool
deriving DecidableEq

/-- The options object statQuery actually passes to node stat: the caller's
object (or a fresh one) with throwIfNoEntry forced to true, per the
handler's comment "Ensure throwIfNoEntry is not false".  Translation of
line 58 of src/fs/index.ts. -/
def statForcedOptions : Option StatOptions → StatOptions
  | some o => { o with throwIfNoEntry := some true }
  | none => { throwIfNoEntry := some true }

/-- Model of node stat at a path: a present path yields its metadata; an
absent path yields undefined (ok none) when throwIfNoEntry is false and an
ENOENT rejection otherwise. -/
def nodeStat (world : String → Option NodeStats) (path : String) (opts : StatOptions) :
    Except String (Option NodeStats) :=
  match world path with
  | some s => .ok (some s)
  | none => if opts.throwIfNoEntry = some false then .ok none else .error "ENOENT"

/-- statQuery: forces throwIfNoEntry, stats the path, and copies the Stats
object field by field into the plain wire record (Dates rendered with
toISOString).  Translation of lines 56-84 of src/fs/index.ts.  The ok-none
arm is the field access on an undefined stats value, which the override
makes unreachable. -/
def statQuery (world : String → Option NodeStats) (input : StatInput) :
    Except String StatOutput :=
  match nodeStat world input.path (statForcedOptions input.options) with
  | .error e => .error e
  | .ok none => .error "TypeError: cannot read properties of undefined"
  | .ok (some s) =>
      .ok { dev := s.dev, ino := s.ino, mode := s.mode, nlink := s.nlink,
            uid := s.uid, gid := s.gid, rdev := s.rdev, size := s.size,
            blksize := s.blksize, blocks := s.blocks,
            atimeMs := s.atimeMs, mtimeMs := s.mtimeMs, ctimeMs := s.ctimeMs,
            birthtimeMs := s.birthtimeMs,
            atime := s.atimeIso, mtime := s.mtimeIso, ctime := s.ctimeIso,
            birthtime := s.birthtimeIso,
            isFile := s.isFile, isDirectory := s.isDirectory,
            isSymbolicLink := s.isSymbolicLink }

/-- Options object of fs.delete (zod deleteInput). -/
structure DeleteOptions where
  recursive : Option Bool := none
  force : Option Bool := none

/-- Input of fs.delete. -/
structure DeleteInput where
  path : String
  options : Option DeleteOptions := none

/-- Wire shape of the delete result. -/
structure DeleteOutput where
  success : Bool
deriving DecidableEq

/-- Model of node fs.rm on the store restricted to regular-file entries: a
present path is removed; an absent path is tolerated exactly when the
force option is set, and rejects with ENOENT otherwise. -/
def nodeRm (store : FileStore) (path : String) (opts : Option DeleteOptions) :
    Except String FileStore :=
  match storeLookup store path with
  | some _ => .ok (storeErase store path)
  | none =>
      if (opts.bind (fun o => o.force)).getD false then .ok store
      else .error "ENOENT"

/-- deleteMutation: awaits fs.rm with the caller's options and then reports
success.  Translation of lines 102-105 of src/fs/index.ts. -/
def deleteMutation (store : FileStore) (input : DeleteInput) :
    Except String (FileStore × DeleteOutput) :=
  match nodeRm store input.path input.options with
  | .error e => .error e
  | .ok store2 => .ok (store2, { success := true })

/-! ## Process operations (process handler file, schemas in src/process/index.types.ts) -/

/-- The closed stdio-mode enum of the spawn schema. -/
inductive StdioMode where
  | pipe
  | inherit
  | ignore
deriving DecidableEq

/-- Options object of process.spawn (zod spawnInput). -/
structure SpawnOptions where
  cwd : Option String := none
  env : Option (List (String × String)) := none
  stdin : Option StdioMode := none
  stdout : Option StdioMode := none
  stderr : Option StdioMode := none

/-- Input of process.spawn: command is an array of strings. -/
structure SpawnInput where
  command : List String
  options : Option SpawnOptions := none

/-- Residual runtime constraint of the zod spawnInput schema on well-typed
values: z.array(z.string()).min(1) requires a non-empty command array. -/
def spawnInputAccepts (i : SpawnInput) : Bool :=
  decide (1 ≤ i.command.length)

/-- Wire shape of the process result (zod processOutput): exitCode is
declared nullable. -/
structure ProcessOutput where
  stdout : String
  stderr : String
  exitCode : Option Int
  success : Bool
deriving DecidableEq

/-- Terminal state of a child process that actually started: a normal exit
with a status code, or termination by a signal. -/
inductive ProcOutcome where
  | exited (code : Int)
  | killed (signal : Nat)

/-- Value the Bun Subprocess `exited` promise resolves with.  Its type is
Promise of number: for a normal exit it is the exit status, and for a
signal-terminated child Bun reports the conventional numeric 128+signal
status; the promise never resolves with null. -/
def exitedValue : ProcOutcome → Int
  | .exited code => code
  | .killed signal => 128 + (signal : Int)

/-- One Bun.spawn run as the handler observes it: whether the executable
could be launched at all, the terminal outcome, and the text drained from
each piped stream. -/
structure BunSpawn where
  launches : Bool
  outcome : ProcOutcome
  stdoutText : String
  stderrText : String

/-- Effective stdout mode: the handler passes options.stdout ?? "pipe". -/
def spawnStdoutMode (i : SpawnInput) : StdioMode :=
  ((i.options.bind (fun o => o.stdout)).getD .pipe)

/-- Effective stderr mode: the handler passes options.stderr ?? "pipe". -/
def spawnStderrMode (i : SpawnInput) : StdioMode :=
  ((i.options.bind (fun o => o.stderr)).getD .pipe)

/-- spawnMutation: destructures the command array into executable and
arguments, launches via Bun.spawn (a launch failure rejects the call),
drains proc.stdout and proc.stderr when they are piped (the streams exist
only in pipe mode; otherwise the handler substitutes the empty string),
awaits proc.exited, and returns the result record with
success := exitCode === 0.  Translation of lines 148-172 of the process
handler file. -/
def spawnMutation (bun : BunSpawn) (input : SpawnInput) : Except String ProcessOutput :=
  match input.command.head? with
  | none => .error "spawn: command executable is undefined"
  | some _cmd =>
      if bun.launches then
        let stdout := if spawnStdoutMode input = .pipe then bun.stdoutText else ""
        let stderr := if spawnStderrMode input = .pipe then bun.stderrText else ""
        let exitCode := exitedValue bun.outcome
        .ok { stdout := stdout, stderr := stderr,
              exitCode := some exitCode, success := exitCode == 0 }
      else .error "spawn: executable could not be launched"

/-- Options object of process.exec (zod execInput). -/
structure ExecOptions where
  cwd : Option String := none
  env : Option (List (String × String)) := none
  shell : Option Bool := none

/-- Input of process.exec: command is a single string. -/
structure ExecInput where
  command : String
  options : Option ExecOptions := none

/-- Persistent defaults of the Bun `$` shell module.  `$.cwd(...)` and
`$.env(...)` overwrite these module-level defaults for every later `$`
invocation in the same server process; `import("bun")` always yields the
same cached module, so the state survives across calls. -/
structure ShellState where
  cwd : Option String := none
  env : Option (List (String × String)) := none
deriving DecidableEq

/-- Observable result of one Bun `$` shell run before the throw-on-nonzero
policy is applied. -/
structure ShellRun where
  stdout : String
  stderr : String
  exitCode : Int

/-- Oracle for Bun `$` runs: result of executing an argument vector under
given effective cwd and env defaults. -/
def ShellOracle : Type :=
  List String → Option String → Option (List (String × String)) → ShellRun

/-- The argument vector the template literal sends to the Bun shell.  The
handler destructures the command STRING character by character
(const bracketed cmd, dots args equals input.command), so cmd is the first
character and args are the remaining characters; Bun `$` escapes every
interpolated value into a literal word (array elements become separate
escaped words), so the run's argv is exactly the list of one-character
strings and no character of the command is ever parsed as a shell
operator. -/
def execArgv (command : String) : List String :=
  command.data.map (fun ch => String.mk [ch])

/-- State mutation performed before the run: `$.cwd` is called only when the
cwd option is present and truthy (a non-empty string), `$.env` only when
the env option is present (objects are always truthy).  Translation of
lines 204-211 of the process handler file. -/
def execApplyOptions (st : ShellState) (input : ExecInput) : ShellState :=
  let st1 :=
    match input.options.bind (fun o => o.cwd) with
    | some c => if c = "" then st else { st with cwd := some c }
    | none => st
  match input.options.bind (fun o => o.env) with
  | some e => { st1 with env := some e }
  | none => st1

/-- execMutation: imports the shared `$`, applies the option mutations to
its module state, destructures the command string, and awaits the template
run.  Bun `$` throws a ShellError whenever the run's exit code is non-zero
(the handler never calls nothrow), so only zero-exit runs reach the result
record.  Translation of lines 201-223 of the process handler file. -/
def execMutation (oracle : ShellOracle) (st : ShellState) (input : ExecInput) :
    ShellState × Except String ProcessOutput :=
  let st2 := execApplyOptions st input
  if input.command = "" then
    (st2, .error "exec: command executable is undefined")
  else
    let r := oracle (execArgv input.command) st2.cwd st2.env
    if r.exitCode = 0 then
      (st2, .ok { stdout := r.stdout, stderr := r.stderr,
                  exitCode := some r.exitCode, success := r.exitCode == 0 })
    else
      (st2, .error "ShellError: command exited with a non-zero code")

/-! ## Claims -/

/-- C1: the spec says exec interprets its input as a single shell command
string executed by a shell, with pipes working, so that
exec of "echo hi | tr a-z A-Z" yields stdout "HI" and a newline.  On the
code this fails: the handler destructures the command string character by
character and interpolates the characters into the Bun `$` template, which
escapes them, so the run's argument vector is the list of one-character
words below — the program invoked is "e" and "|" is passed as a literal
escaped argument, never parsed as a pipe operator. -/
theorem exec_shell_string_not_interpreted :
    (execArgv "echo hi | tr a-z A-Z").head? = some "e" ∧
    "|" ∈ execArgv "echo hi | tr a-z A-Z" ∧
    execArgv "echo hi | tr a-z A-Z" =
      ["e", "c", "h", "o", " ", "h", "i", " ", "|", " ",
       "t", "r", " ", "a", "-", "z", " ", "A", "-", "Z"] := by
  decide

/-- Shell oracle that echoes the effective cwd default of the run (the
process cwd when no default has been installed), exiting 0 — the behaviour
of a pwd-like command. -/
def cwdEchoOracle : ShellOracle :=
  fun _ cwd _ => { stdout := cwd.getD "/initial-process-cwd", stderr := "", exitCode := 0 }

/-- An exec call supplying a cwd option. -/
def execCallWithCwd : ExecInput :=
  { command := "pwd", options := some { cwd := some "/tmp" } }

/-- An exec call omitting all options. -/
def execCallPlain : ExecInput :=
  { command := "pwd" }

/-- C2: the spec says every call is handled independently with no
cross-call shared mutable state, so an exec call supplying cwd must not
influence a later exec call omitting it.  On the code this fails: the
handler stores the cwd option into the module-global Bun `$` defaults, so
the very same optionless call observes cwd "/tmp" when it follows the
cwd-supplying call but the process cwd when run against a fresh state. -/
theorem exec_options_leak_across_calls :
    (execMutation cwdEchoOracle
        ((execMutation cwdEchoOracle {} execCallWithCwd).fst) execCallPlain).snd =
      .ok { stdout := "/tmp", stderr := "", exitCode := some 0, success := true } ∧
    (execMutation cwdEchoOracle {} execCallPlain).snd =
      .ok { stdout := "/initial-process-cwd", stderr := "",
            exitCode := some 0, success := true } := by
  constructor <;> rfl

/-- C3: round-trip binary fidelity — writing the wire Buffer record for a
byte sequence B and reading the same path back with no encoding option
yields a Buffer-tagged value whose base64 payload decodes to exactly B. -/
theorem writeFile_readFile_binary_roundtrip
    (encodeText : String → Option WriteFileOptions → List Nat)
    (toText : List Nat → String → String)
    (store : FileStore) (p : String) (B : List Nat)
    (hB : ∀ b ∈ B, b < 256) :
    ∃ d : String,
      readFileQuery toText
          (writeFileMutation encodeText store
              { path := p, data := .buffer (String.mk (base64EncodeBytes B)) }).fst
          { path := p } = .ok { type := "Buffer", data := d } ∧
      base64DecodeBytes d.data = B := by
  refine ⟨String.mk (base64EncodeBytes B), ?_, base64_decode_encode B hB⟩
  have hX : base64DecodeBytes (String.mk (base64EncodeBytes B)).data = B :=
    base64_decode_encode B hB
  simp [readFileQuery, writeFileMutation, storeInsert, storeLookup,
    readFileRequestedEncoding, hX]

/-- Witness for the binary round trip at the concrete bytes 0, 255, 16, 33. -/
theorem writeFile_readFile_binary_roundtrip_witness :
    (∀ b ∈ [0, 255, 16, 33], b < 256) ∧
    (∃ d : String,
      readFileQuery (fun _ _ => "")
          (writeFileMutation (fun _ _ => []) ([] : FileStore)
              { path := "a.bin",
                data := .buffer (String.mk (base64EncodeBytes [0, 255, 16, 33])) }).fst
          { path := "a.bin" } = .ok { type := "Buffer", data := d } ∧
      base64DecodeBytes d.data = [0, 255, 16, 33]) :=
  ⟨by decide,
   writeFile_readFile_binary_roundtrip (fun _ _ => []) (fun _ _ => "")
     ([] : FileStore) "a.bin" [0, 255, 16, 33] (by decide)⟩

/-- C4: the spec says exitCode is null exactly when the process was
terminated by a signal.  On the code this fails: Bun's exited promise
resolves with a number even for a signal-terminated child, so the spawn
result of a killed process carries the numeric 128+signal exit code and
success false — its exitCode is never null. -/
theorem spawn_signal_kill_numeric_exitCode
    (s : Nat) (outS errS : String) (i : SpawnInput) (hc : i.command ≠ []) :
    ∃ r : ProcessOutput,
      spawnMutation { launches := true, outcome := .killed s,
                      stdoutText := outS, stderrText := errS } i = .ok r ∧
      r.exitCode = some (128 + (s : Int)) ∧ r.exitCode ≠ none ∧ r.success = false := by
  obtain ⟨cmd, rest, hcmd⟩ : ∃ cmd rest, i.command = cmd :: rest := by
    cases hcm : i.command with
    | nil => exact absurd hcm hc
    | cons a l => exact ⟨a, l, rfl⟩
  have hsucc : ((128 + (s : Int)) == 0) = false := by
    rw [beq_eq_false_iff_ne]
    omega
  refine ⟨{ stdout := if spawnStdoutMode i = .pipe then outS else "",
            stderr := if spawnStderrMode i = .pipe then errS else "",
            exitCode := some (128 + (s : Int)), success := false }, ?_, rfl, by simp, rfl⟩
  simp [spawnMutation, hcmd, exitedValue, hsucc]

/-- Witness for the signal-termination evaluation: a spawn of sleep 100
whose child is terminated by signal 15 returns exit code 143, not null. -/
theorem spawn_signal_kill_numeric_exitCode_witness :
    ((["sleep", "100"] : List String) ≠ []) ∧
    (∃ r : ProcessOutput,
      spawnMutation { launches := true, outcome := .killed 15,
                      stdoutText := "", stderrText := "" }
          { command := ["sleep", "100"] } = .ok r ∧
      r.exitCode = some (128 + ((15 : Nat) : Int)) ∧ r.exitCode ≠ none ∧ r.success = false) :=
  ⟨by decide,
   spawn_signal_kill_numeric_exitCode 15 "" "" { command := ["sleep", "100"] } (by decide)⟩

/-- Shell oracle for a run that starts and terminates normally with exit
status 1 and no output — the behaviour of the false utility. -/
def exitOneOracle : ShellOracle :=
  fun _ _ _ => { stdout := "", stderr := "", exitCode := 1 }

/-- C5 counterexample: the spec says that once the target process has
started and terminated, the call returns a ProcessResult, with a non-zero
exit status yielding a normal result carrying success false.  For exec
this fails: a run that starts and exits with status 1 makes Bun `$` throw,
so the call fails with an error and no ProcessResult is returned. -/
theorem exec_nonzero_exit_fails_call :
    (execMutation exitOneOracle {} { command := "false" }).snd =
      .error "ShellError: command exited with a non-zero code" := by
  rfl

/-- C5 (amended): for spawn the claim holds — once launched, any terminal
outcome returns a ProcessResult whose success is false for a non-zero
status, and only a launch failure fails the call.  For exec, only a run
whose exit code is 0 returns a ProcessResult; any non-zero exit makes the
call fail with an error, in addition to launch failures. -/
theorem process_result_vs_error_split
    (bun : BunSpawn) (i : SpawnInput) (hc : i.command ≠ [])
    (oracle : ShellOracle) (st : ShellState) (j : ExecInput) (hj : j.command ≠ "") :
    (bun.launches = true →
      ∃ r : ProcessOutput, spawnMutation bun i = .ok r ∧
        (exitedValue bun.outcome ≠ 0 → r.success = false)) ∧
    (bun.launches = false → ∃ e, spawnMutation bun i = .error e) ∧
    ((oracle (execArgv j.command) (execApplyOptions st j).cwd
        (execApplyOptions st j).env).exitCode = 0 →
      ∃ r : ProcessOutput, (execMutation oracle st j).snd = .ok r) ∧
    ((oracle (execArgv j.command) (execApplyOptions st j).cwd
        (execApplyOptions st j).env).exitCode ≠ 0 →
      ∃ e, (execMutation oracle st j).snd = .error e) := by
  obtain ⟨cmd, rest, hcmd⟩ : ∃ cmd rest, i.command = cmd :: rest := by
    cases hcm : i.command with
    | nil => exact absurd hcm hc
    | cons a l => exact ⟨a, l, rfl⟩
  refine ⟨?_, ?_, ?_, ?_⟩
  · intro hl
    refine ⟨{ stdout := if spawnStdoutMode i = .pipe then bun.stdoutText else "",
              stderr := if spawnStderrMode i = .pipe then bun.stderrText else "",
              exitCode := some (exitedValue bun.outcome),
              success := exitedValue bun.outcome == 0 }, ?_, ?_⟩
    · simp [spawnMutation, hcmd, hl]
    · intro hnz
      rw [beq_eq_false_iff_ne]
      exact hnz
  · intro hl
    refine ⟨"spawn: executable could not be launched", ?_⟩
    simp [spawnMutation, hcmd, hl]
  · intro h0
    refine ⟨{ stdout := (oracle (execArgv j.command) (execApplyOptions st j).cwd
                  (execApplyOptions st j).env).stdout,
              stderr := (oracle (execArgv j.command) (execApplyOptions st j).cwd
                  (execApplyOptions st j).env).stderr,
              exitCode := some (oracle (execArgv j.command) (execApplyOptions st j).cwd
                  (execApplyOptions st j).env).exitCode,
              success := (oracle (execArgv j.command) (execApplyOptions st j).cwd
                  (execApplyOptions st j).env).exitCode == 0 }, ?_⟩
    simp only [execMutation]
    rw [if_neg hj, if_pos h0]
  · intro h0
    refine ⟨"ShellError: command exited with a non-zero code", ?_⟩
    simp only [execMutation]
    rw [if_neg hj, if_neg h0]

/-- A launched spawn run exiting 1. -/
def bunLaunchOkExit1 : BunSpawn :=
  { launches := true, outcome := .exited 1, stdoutText := "", stderrText := "" }

/-- A spawn input running the false utility. -/
def spawnFalseInput : SpawnInput := { command := ["false"] }

/-- An exec input running ls. -/
def execLsInput : ExecInput := { command := "ls" }

/-- Witness for the result-versus-error split at concrete inputs. -/
theorem process_result_vs_error_split_witness :
    (spawnFalseInput.command ≠ []) ∧ (execLsInput.command ≠ "") ∧
    ((bunLaunchOkExit1.launches = true →
      ∃ r : ProcessOutput, spawnMutation bunLaunchOkExit1 spawnFalseInput = .ok r ∧
        (exitedValue bunLaunchOkExit1.outcome ≠ 0 → r.success = false)) ∧
     (bunLaunchOkExit1.launches = false →
      ∃ e, spawnMutation bunLaunchOkExit1 spawnFalseInput = .error e) ∧
     ((exitOneOracle (execArgv execLsInput.command) (execApplyOptions {} execLsInput).cwd
         (execApplyOptions {} execLsInput).env).exitCode = 0 →
      ∃ r : ProcessOutput, (execMutation exitOneOracle {} execLsInput).snd = .ok r) ∧
     ((exitOneOracle (execArgv execLsInput.command) (execApplyOptions {} execLsInput).cwd
         (execApplyOptions {} execLsInput).env).exitCode ≠ 0 →
      ∃ e, (execMutation exitOneOracle {} execLsInput).snd = .error e)) :=
  ⟨by decide, by decide,
   process_result_vs_error_split bunLaunchOkExit1 spawnFalseInput (by decide)
     exitOneOracle {} execLsInput (by decide)⟩

/-- C6: stat on an absent path fails the call with a not-found error for
every caller-supplied options value, throwIfNoEntry false included: the
handler forces throwIfNoEntry to true before calling node stat, so no
empty or undefined result is ever returned. -/
theorem stat_missing_path_always_raises
    (world : String → Option NodeStats) (input : StatInput)
    (habs : world input.path = none) :
    statQuery world input = .error "ENOENT" := by
  have hforce : (statForcedOptions input.options).throwIfNoEntry = some true := by
    cases input.options <;> rfl
  simp [statQuery, nodeStat, habs, hforce]

/-- Witness for the stat override at a concrete absent path with
throwIfNoEntry explicitly set to false. -/
theorem stat_missing_path_always_raises_witness :
    ((fun _ : String => (none : Option NodeStats)) "/missing" = none) ∧
    statQuery (fun _ => none)
        { path := "/missing", options := some { throwIfNoEntry := some false } } =
      .error "ENOENT" :=
  ⟨rfl,
   stat_missing_path_always_raises (fun _ => none)
     { path := "/missing", options := some { throwIfNoEntry := some false } } rfl⟩

/-- C7: exit-code/success coherence — every ProcessResult returned by
spawn or exec has success true exactly when its exitCode is 0. -/
theorem process_success_iff_exit_zero
    (bun : BunSpawn) (i : SpawnInput)
    (oracle : ShellOracle) (st : ShellState) (j : ExecInput)
    (r r2 : ProcessOutput)
    (hs : spawnMutation bun i = .ok r)
    (he : (execMutation oracle st j).snd = .ok r2) :
    (r.success = true ↔ r.exitCode = some 0) ∧
    (r2.success = true ↔ r2.exitCode = some 0) := by
  constructor
  · cases hcmd : i.command.head? with
    | none => simp [spawnMutation, hcmd] at hs
    | some cmd =>
      by_cases hl : bun.launches
      · simp only [spawnMutation, hcmd, hl, if_pos] at hs
        rw [Except.ok.injEq] at hs
        subst hs
        simp [beq_iff_eq]
      · simp [spawnMutation, hcmd, hl] at hs
  · by_cases hj : j.command = ""
    · simp [execMutation, hj] at he
    · by_cases h0 : (oracle (execArgv j.command) (execApplyOptions st j).cwd
          (execApplyOptions st j).env).exitCode = 0
      · simp only [execMutation] at he
        rw [if_neg hj, if_pos h0] at he
        simp only [Except.ok.injEq] at he
        subst he
        simp [beq_iff_eq, h0]
      · simp only [execMutation] at he
        rw [if_neg hj, if_neg h0] at he
        simp at he

/-- A launched spawn run exiting 0 with piped output hi. -/
def bunEchoHi : BunSpawn :=
  { launches := true, outcome := .exited 0, stdoutText := "hi", stderrText := "" }

/-- A spawn input running echo hi. -/
def spawnEchoInput : SpawnInput := { command := ["echo", "hi"] }

/-- The spawn result of bunEchoHi. -/
def procOkHi : ProcessOutput :=
  { stdout := "hi", stderr := "", exitCode := some 0, success := true }

/-- The exec result of cwdEchoOracle from a fresh shell state. -/
def procOkCwd : ProcessOutput :=
  { stdout := "/initial-process-cwd", stderr := "", exitCode := some 0, success := true }

/-- Witness for exit-code/success coherence at concrete runs of spawn and
exec. -/
theorem process_success_iff_exit_zero_witness :
    (spawnMutation bunEchoHi spawnEchoInput = .ok procOkHi) ∧
    ((execMutation cwdEchoOracle {} execLsInput).snd = .ok procOkCwd) ∧
    ((procOkHi.success = true ↔ procOkHi.exitCode = some 0) ∧
     (procOkCwd.success = true ↔ procOkCwd.exitCode = some 0)) :=
  ⟨rfl, rfl,
   process_success_iff_exit_zero bunEchoHi spawnEchoInput cwdEchoOracle {} execLsInput
     procOkHi procOkCwd rfl rfl⟩

/-- C8: exists never raises — it returns a Bool that is true exactly when
the access probe succeeds, and false for every access error, not-found and
permission errors alike. -/
theorem exists_true_iff_access_ok
    (access : String → Except String Unit) (input : ExistsInput) :
    (existsQuery access input = true ↔ access input.path = .ok ()) ∧
    (existsQuery access input = false ↔ ∃ e, access input.path = .error e) := by
  cases h : access input.path with
  | ok u => cases u; simp [existsQuery, h]
  | error e => simp [existsQuery, h]

/-- C9: delete with force true on a non-existent path returns success and
raises no error, while delete without options fails with a not-found
error. -/
theorem delete_force_tolerates_missing
    (store : FileStore) (p : String) (habs : storeLookup store p = none) :
    deleteMutation store { path := p, options := some { force := some true } } =
      .ok (store, { success := true }) ∧
    deleteMutation store { path := p } = .error "ENOENT" := by
  constructor <;> simp [deleteMutation, nodeRm, habs]

/-- Witness for delete-force tolerance at a concrete missing path. -/
theorem delete_force_tolerates_missing_witness :
    (storeLookup ([] : FileStore) "gone" = none) ∧
    (deleteMutation ([] : FileStore) { path := "gone", options := some { force := some true } } =
        .ok (([] : FileStore), { success := true }) ∧
     deleteMutation ([] : FileStore) { path := "gone" } = .error "ENOENT") :=
  ⟨rfl, delete_force_tolerates_missing ([] : FileStore) "gone" rfl⟩

/-- C10: every input accepted by the spawn schema has a command array with
at least one element, so the executable extracted by the destructuring is
always present and spawnMutation never reaches its undefined-executable
branch. -/
theorem accepted_spawn_command_nonempty
    (i : SpawnInput) (h : spawnInputAccepts i = true) :
    (∃ cmd args, i.command = cmd :: args) ∧
    ∀ bun : BunSpawn,
      spawnMutation bun i ≠ .error "spawn: command executable is undefined" := by
  obtain ⟨cmd, args, hcmd⟩ : ∃ cmd args, i.command = cmd :: args := by
    cases hc : i.command with
    | nil => simp [spawnInputAccepts, hc] at h
    | cons a l => exact ⟨a, l, rfl⟩
  refine ⟨⟨cmd, args, hcmd⟩, ?_⟩
  intro bun
  simp only [spawnMutation, hcmd, List.head?]
  split
  · simp
  · simp

/-- Witness for schema-guarded destructuring at a concrete accepted input. -/
theorem accepted_spawn_command_nonempty_witness :
    (spawnInputAccepts spawnEchoInput = true) ∧
    ((∃ cmd args, spawnEchoInput.command = cmd :: args) ∧
     ∀ bun : BunSpawn,
       spawnMutation bun spawnEchoInput ≠ .error "spawn: command executable is undefined") :=
  ⟨by decide, accepted_spawn_command_nonempty spawnEchoInput (by decide)⟩

end Bridge
